import Mathlib

set_option autoImplicit false

/-!
Verification of the protocol engine of `fastapi-inertia`
(src/inertia/inertia.py, config.py, utils.py, templating.py), shallowly
embedded in Lean.  Python dicts are ordered association lists, header maps
are case-insensitive association lists, fallible operations return
`Except`, and the session is threaded explicitly.  A second, store-based
view of `_deep_transform_callables` models Python object identity for the
mutation claim.
-/

namespace FastApiInertia

/-- HTTP header list. Starlette header lookup is case-insensitive, so the
stored keys are compared lowercased. -/
abbrev Headers := List (String × String)

/-- Case-insensitive string comparison (characterwise `Char.toLower`),
used for header keys.  (`String.toLower` itself is defined by
well-founded recursion over byte positions and does not reduce in the
kernel, so the comparison is modelled over the character lists.) -/
def lowerEq (a b : String) : Bool :=
  a.data.map Char.toLower == b.data.map Char.toLower

/-- `request.headers.get(key)`: first value whose key matches case-insensitively. -/
def Headers.get (h : Headers) (key : String) : Option String :=
  (h.find? (fun p => lowerEq p.1 key)).map (fun p => p.2)

/-- `request.headers.get(key, default)`. -/
def Headers.getD (h : Headers) (key dflt : String) : String :=
  (Headers.get h key).getD dflt

/-- `key in request.headers`. -/
def Headers.hasKey (h : Headers) (key : String) : Bool :=
  (Headers.get h key).isSome

/-- Python `s.split(sep)` for a one-character separator (the source only
splits on `","`), recursing over the character list: the same semantics as
`String.splitOn`, which itself does not reduce in the kernel. -/
def pySplitChar (sep : Char) : List Char → List Char → List String
  | [], acc => [String.mk acc.reverse]
  | c :: rest, acc =>
    if c = sep then String.mk acc.reverse :: pySplitChar sep rest []
    else pySplitChar sep rest (c :: acc)

/-- Python `s.split(sep)`, one-character separator. -/
def pySplit (s : String) (sep : Char) : List String :=
  pySplitChar sep s.data []

/-- Python values as they occur in prop mappings (tree view; aliasing is
modelled separately for the mutation claim).
`vfunc v` is an opaque zero-argument callable whose call returns `v`;
`vlazy p` is `LazyProp(p)` from src/inertia/utils.py, whose call returns
`p() if callable(p) else p`; `vmodel fields` is a pydantic `BaseModel`
whose `model_dump()` yields its field mapping. -/
inductive Val where
  | vnone : Val
  | vint : Int → Val
  | vstr : String → Val
  | vbool : Bool → Val
  | vlist : List Val → Val
  | vdict : List (String × Val) → Val
  | vmodel : List (String × Val) → Val
  | vfunc : Val → Val
  | vlazy : Val → Val

/-- Python `callable(v)`: functions and `LazyProp` instances (which define
a zero-argument call). -/
def Val.isCallable : Val → Bool
  | .vfunc _ => true
  | .vlazy _ => true
  | _ => false

/-- The result of `v()` for a callable `v`.  `LazyProp.__call__` is
`self.prop() if callable(self.prop) else self.prop`. -/
def Val.callResult : Val → Val
  | .vfunc v => v
  | .vlazy p => if p.isCallable then p.callResult else p
  | v => v

/-- `isinstance(v, LazyProp)`. -/
def Val.isLazyProp : Val → Bool
  | .vlazy _ => true
  | _ => false

/-- `FlashMessage` TypedDict from src/inertia/inertia.py. -/
structure FlashMessage where
  message : String
  category : String

/-- The request session (an external key-value store with get/set/pop):
only the two keys the adapter touches, `"_messages"` and `"_errors"`;
`none` models an absent key. -/
structure Session where
  messages : Option (List FlashMessage)
  errors : Option (List (String × String))

/-- The parts of the FastAPI `Request` the adapter reads (the session is
threaded separately because the adapter mutates it). -/
structure Request where
  headers : Headers
  url : String
  method : String

/-- The `Literal["development", "production"]` environment. -/
inductive Env where
  | development : Env
  | production : Env
deriving DecidableEq, Repr

/-- `InertiaConfig` from src/inertia/config.py, with its defaults.  The
`templates` and `json_encoder` fields are external collaborators (Jinja2
and the jsonable encoder) and are modelled by their observable behaviour
instead of being stored.  Note: the dataclass in src/inertia/config.py
defines no assets-prefix field, although src/inertia/inertia.py reads
`self._config.assets_prefix`; see `Inertia._set_inertia_files` below. -/
structure InertiaConfig where
  environment : Env := .development
  version : String := "1.0"
  manifest_json_path : String := "dist/.vite/manifest.json"
  root_directory : String := "src"
  root_template_filename : String := "index.html"
  entrypoint_filename : String := "main.js"
  dev_url : String := "http://localhost:5173"
  ssr_url : String := "http://localhost:13714"
  ssr_enabled : Bool := false
  is_react : Bool := false
  use_flash_messages : Bool := false
  use_flash_errors : Bool := false
  flash_message_key : String := "messages"
  flash_error_key : String := "errors"

/-- Python exceptions the embedded code can raise. -/
inductive PyError where
  | keyError : PyError
  | attributeError : String → PyError
  | fileNotFoundError : PyError
  | notImplementedError : PyError
  | typeError : PyError
deriving DecidableEq, Repr

/-- A chunk of the Vite manifest (`file` plus optional `css` list). -/
structure ManifestChunk where
  file : String
  css : Option (List String)

/-- Parsed manifest: mapping from source-entry key to chunk. -/
abbrev ViteManifest := List (String × ManifestChunk)

/-- `Inertia.InertiaFiles`. -/
structure InertiaFiles where
  css_files : List String
  js_file : String

namespace Inertia

/-- `Inertia._partial_keys`:
`self._request.headers.get("X-Inertia-Partial-Data", "").split(",")`. -/
def _partial_keys (req : Request) : List String :=
  pySplit (Headers.getD req.headers "X-Inertia-Partial-Data" "") (Char.ofNat 44)

/-- `Inertia._is_inertia_request`: `"X-Inertia" in self._request.headers`. -/
def _is_inertia_request (req : Request) : Bool :=
  Headers.hasKey req.headers "X-Inertia"

/-- `Inertia._is_stale`: the version header (absent ⇒ the configured
version itself) compared against the configured version. -/
def _is_stale (req : Request) (config_ : InertiaConfig) : Bool :=
  Headers.getD req.headers "X-Inertia-Version" config_.version != config_.version

/-- `Inertia._is_a_partial_render`: partial-data header present and the
partial-component header (absent ⇒ `""`) equal to the current component. -/
def _is_a_partial_render (req : Request) (component : String) : Bool :=
  Headers.hasKey req.headers "X-Inertia-Partial-Data" &&
    Headers.getD req.headers "X-Inertia-Partial-Component" "" == component

mutual

/-- `Inertia._deep_transform_callables` (value view; the store view for the
mutation claim is `deepTransformH` below).  A dict is copied and each value
transformed in place; otherwise a callable is called, a `BaseModel` is
dumped to its field mapping, and anything else is returned unchanged. -/
def _deep_transform_callables : Val → Val
  | .vdict entries => .vdict (_deep_transform_entries entries)
  | v =>
    if v.isCallable then v.callResult
    else
      match v with
      | .vmodel fields => .vdict fields
      | w => w

/-- The `for key in list(prop_.keys())` loop of `_deep_transform_callables`. -/
def _deep_transform_entries : List (String × Val) → List (String × Val)
  | [] => []
  | (k, v) :: rest => (k, _deep_transform_callables v) :: _deep_transform_entries rest

end

/-- `Inertia._build_props`: copy the prop dict, on a partial render delete
the keys outside `_partial_keys`, otherwise delete the `LazyProp` values,
then deep-transform the result. -/
def _build_props (req : Request) (component : String) (props : List (String × Val)) :
    List (String × Val) :=
  _deep_transform_entries (props.filter (fun p =>
    if _is_a_partial_render req component then
      decide (p.1 ∈ _partial_keys req)
    else
      !p.2.isLazyProp))

/-- The wire `PageObject` built by `Inertia._get_page_data`. -/
structure PageData where
  component : String
  props : List (String × Val)
  url : String
  version : String

/-- `Inertia._get_page_data`. -/
def _get_page_data (req : Request) (config_ : InertiaConfig) (component : String)
    (props : List (String × Val)) : PageData :=
  { component := component
    props := _build_props req component props
    url := req.url
    version := config_.version }

/-- `Inertia._get_flashed_messages`: pop `"_messages"` from the session
(absent ⇒ `[]`, session unchanged). -/
def _get_flashed_messages (s : Session) : List FlashMessage × Session :=
  match s.messages with
  | some ms => (ms, { s with messages := none })
  | none => ([], s)

/-- `Inertia._get_flashed_errors`: pop `"_errors"` from the session. -/
def _get_flashed_errors (s : Session) : List (String × String) × Session :=
  match s.errors with
  | some es => (es, { s with errors := none })
  | none => ([], s)

/-- `Inertia.flash`: require the feature enabled, then append to the
session-backed `"_messages"` list (created empty when absent). -/
def flash (config_ : InertiaConfig) (s : Session) (message category : String) :
    Except PyError Session :=
  if !config_.use_flash_messages then .error .notImplementedError
  else
    .ok { s with messages := some (s.messages.getD [] ++ [⟨message, category⟩]) }

/-- Python `d[k]` on a dict (total variant returning `Option`): the value
stored under `k`. -/
def dlookup (d : List (String × Val)) (k : String) : Option Val :=
  match d with
  | [] => none
  | p :: rest => if p.1 = k then some p.2 else dlookup rest k

/-- Python `d[k] = v` on a dict: replace in place when the key exists,
append otherwise. -/
def dictSet (d : List (String × Val)) (k : String) (v : Val) : List (String × Val) :=
  if d.any (fun p => decide (p.1 = k)) then
    d.map (fun p => if p.1 = k then (k, v) else p)
  else d ++ [(k, v)]

/-- Python `d.update(u)`. -/
def dictUpdate (d u : List (String × Val)) : List (String × Val) :=
  u.foldl (fun acc p => dictSet acc p.1 p.2) d

/-- CPython `posixpath.join(a, *p)` — the function the bundled branch of
`_set_inertia_files` calls as `posixpath.join("/", prefix, file)`. -/
def strStartsWithSlash (s : String) : Bool :=
  match s.data with
  | c :: _ => c = Char.ofNat 47
  | [] => false

/-- Whether a string ends with `/` (char-level, kernel-reducible). -/
def strEndsWithSlash (s : String) : Bool :=
  match s.data.getLast? with
  | some c => c = Char.ofNat 47
  | none => false

/-- CPython `posixpath.join(a, *p)` — the function the bundled branch of
`_set_inertia_files` calls as `posixpath.join("/", prefix, file)`. -/
def posixpathJoin (a : String) (parts : List String) : String :=
  parts.foldl (fun path b =>
    if strStartsWithSlash b then b
    else if path == "" || strEndsWithSlash path then path ++ b
    else path ++ "/" ++ b) a

/-- `Inertia._set_inertia_files`.  The filesystem is passed explicitly:
`manifest? = none` models a manifest file that cannot be read or parsed.
In the bundled branch (production, or SSR enabled) the source reads
`self._config.assets_prefix`, an attribute the `InertiaConfig` dataclass in
src/inertia/config.py does not define, so after the manifest lookup that
branch raises `AttributeError` and never reaches the `posixpath.join`
calls that would build the URLs. -/
def _set_inertia_files (config_ : InertiaConfig) (manifest? : Option ViteManifest) :
    Except PyError InertiaFiles :=
  if config_.environment == .production || config_.ssr_enabled then
    match manifest? with
    | none => .error .fileNotFoundError
    | some manifest =>
      match manifest.lookup (config_.root_directory ++ "/" ++ config_.entrypoint_filename) with
      | none => .error .keyError
      | some _chunk => .error (.attributeError "assets_prefix")
  else
    .ok { css_files := []
          js_file := config_.dev_url ++ "/" ++ config_.root_directory ++ "/"
            ++ config_.entrypoint_filename }

/-- Modelled from the spec: `InertiaVersionConflictException` is defined in
src/inertia/exceptions.py, which is not among the provided source files;
per the spec, on a version mismatch "construction fails with a
`VersionConflict` error carrying the originally requested URL". -/
structure InertiaVersionConflictException where
  url : String
deriving DecidableEq, Repr

/-- What `Inertia.__init__` can raise. -/
inductive InitError where
  | pyError : PyError → InitError
  | versionConflict : InertiaVersionConflictException → InitError
deriving DecidableEq, Repr

/-- The adapter state after `__init__` (and, with `component`/`props`
updated, at render time). -/
structure State where
  request : Request
  config_ : InertiaConfig
  component : String
  props : List (String × Val)
  inertia_files : InertiaFiles

/-- `Inertia.__init__`: store request and config, set the Inertia files,
then raise `InertiaVersionConflictException(url=str(request.url))` when
the version is stale. -/
def init (req : Request) (config_ : InertiaConfig) (manifest? : Option ViteManifest) :
    Except InitError State :=
  match _set_inertia_files config_ manifest? with
  | .error e => .error (.pyError e)
  | .ok files =>
    if _is_stale req config_ then
      .error (.versionConflict ⟨req.url⟩)
    else
      .ok { request := req, config_ := config_, component := "", props := []
            inertia_files := files }

/-- `Inertia.back`: choose the status code from the method, then read
`self._request.headers["Referer"]`, which raises `KeyError` when the
header is absent. -/
def back (req : Request) : Except PyError (String × Nat) :=
  let status_code := if req.method == "GET" then 307 else 303
  match Headers.get req.headers "Referer" with
  | none => .error .keyError
  | some referer => .ok (referer, status_code)

end Inertia

/-- JSON string literal for `s` (quote, escape backslash and quote; the
control-character escapes are irrelevant to the embedded strings). -/
def jsonEscapeString (s : String) : String :=
  "\"" ++ String.join (s.data.map (fun c =>
    if c = '\\' then "\\\\"
    else if c = '"' then "\\\""
    else String.singleton c)) ++ "\""

mutual

/-- JSON serialization of a value, as
`json.dumps(json.dumps(v, cls=InertiaJsonEncoder))` produces it: the inner
call returns `jsonable_encoder(v)` — a Python object, not a string,
because `InertiaJsonEncoder.encode` (src/inertia/utils.py) returns the
encoder's result directly — so the composition is one JSON serialization
in which a `BaseModel` becomes its field mapping and a callable (function
or `LazyProp`) is not serializable. -/
def valToJson : Val → Option String
  | .vnone => some "null"
  | .vint n => some (toString n)
  | .vbool b => some (if b then "true" else "false")
  | .vstr s => some (jsonEscapeString s)
  | .vlist xs =>
    match listToJson xs with
    | none => none
    | some parts => some ("[" ++ String.intercalate ", " parts ++ "]")
  | .vdict es =>
    match entriesToJson es with
    | none => none
    | some parts => some ("\x7b" ++ String.intercalate ", " parts ++ "\x7d")
  | .vmodel es =>
    match entriesToJson es with
    | none => none
    | some parts => some ("\x7b" ++ String.intercalate ", " parts ++ "\x7d")
  | .vfunc _ => none
  | .vlazy _ => none

def listToJson : List Val → Option (List String)
  | [] => some []
  | v :: rest =>
    match valToJson v, listToJson rest with
    | some s, some ss => some (s :: ss)
    | _, _ => none

def entriesToJson : List (String × Val) → Option (List String)
  | [] => some []
  | (k, v) :: rest =>
    match valToJson v, entriesToJson rest with
    | some s, some ss => some ((jsonEscapeString k ++ ": " ++ s) :: ss)
    | _, _ => none

end

namespace Inertia

/-- The `page_json` string of the classic path (lines 353-355 of
src/inertia/inertia.py): the serialized page dict, keys in insertion
order. -/
def pageToJson (page : PageData) : Option String :=
  match entriesToJson page.props with
  | none => none
  | some parts =>
    some ("\x7b\"component\": " ++ jsonEscapeString page.component
      ++ ", \"props\": " ++ ("\x7b" ++ String.intercalate ", " parts ++ "\x7d")
      ++ ", \"url\": " ++ jsonEscapeString page.url
      ++ ", \"version\": " ++ jsonEscapeString page.version ++ "\x7d")

end Inertia

/-- The `InertiaContext` TypedDict from src/inertia/utils.py.  `none`
models a key the context was built without (`data` on the SSR path,
`ssr_head`/`ssr_body` on the classic path). -/
structure InertiaContext where
  environment : Env
  dev_url : String
  is_ssr : Bool
  data : Option String
  css : List String
  js : String
  is_react : Option Bool
  ssr_head : Option String
  ssr_body : Option String

/-- `_vite_dev_head` from src/inertia/templating.py (the react refresh
preamble abbreviated to its distinguishing part). -/
def _vite_dev_head (dev_url : String) (is_react : Bool) : String :=
  let fragments :=
    (if is_react then
      ["<script type=\"module\">import RefreshRuntime from \x27"
        ++ dev_url ++ "/@react-refresh\x27</script>"]
    else []) ++
    ["<script type=\"module\" src=\"" ++ dev_url ++ "/@vite/client\"></script>"]
  String.intercalate "\n" fragments

/-- The fragment list `InertiaExtension._render_inertia_head` builds. -/
def _render_inertia_head_fragments (ctx : InertiaContext) : List String :=
  (if ctx.environment == .development then
    [_vite_dev_head ctx.dev_url (ctx.is_react.getD false)]
  else []) ++
  (if ctx.is_ssr then [ctx.ssr_head.getD ""] else []) ++
  ctx.css.map (fun css_file => "<link rel=\"stylesheet\" href=\"" ++ css_file ++ "\">")

/-- `InertiaExtension._render_inertia_head`. -/
def _render_inertia_head (ctx : InertiaContext) : String :=
  String.intercalate "\n" (_render_inertia_head_fragments ctx)

/-- `InertiaExtension._render_inertia_body`: the SSR body, or the mount
element `<div id="app" data-page='…'>` with the page JSON, followed by the
module script tag for the resolved JS asset. -/
def _render_inertia_body (ctx : InertiaContext) : String :=
  let fragments :=
    (if ctx.is_ssr then [ctx.ssr_body.getD ""]
     else ["<div id=\"app\" data-page=\x27" ++ ctx.data.getD "" ++ "\x27></div>"]) ++
    ["<script type=\"module\" src=\"" ++ ctx.js ++ "\"></script>"]
  String.intercalate "\n" fragments

/-- `{head, body}` returned by the SSR render service. -/
structure SSRPayload where
  head : List String
  body : String

/-- Failure of the SSR interaction inside `_render_ssr`: connection error,
`raise_for_status`, or a response body without the expected keys. -/
inductive SSRError where
  | networkError : SSRError
  | badStatus : Nat → SSRError
  | malformedBody : SSRError
deriving DecidableEq, Repr

/-- The responses `render` can produce: `JSONResponse(content, headers)`
(status 200) or a `TemplateResponse` (status, template name, context;
starlette's default status 200). -/
inductive InertiaResponse where
  | json : Inertia.PageData → List (String × String) → InertiaResponse
  | template : Nat → String → InertiaContext → InertiaResponse

/-- The HTTP status of a response (`JSONResponse` defaults to 200). -/
def InertiaResponse.status : InertiaResponse → Nat
  | .json _ _ => 200
  | .template st _ _ => st

namespace Inertia

/-- The page `render` builds before branching (lines 322-337 of
src/inertia/inertia.py): pop the flash messages/errors when enabled and
merge them under the configured keys, set the component, merge the
per-call props (`props or {}`), and build the page data; returns the page
together with the session as left by the pops. -/
def renderPage (st : State) (session : Session) (component : String)
    (props : Option (List (String × Val))) : PageData × Session :=
  let step1 :=
    if st.config_.use_flash_messages then
      let popped := _get_flashed_messages session
      (dictUpdate st.props [(st.config_.flash_message_key,
        .vlist (popped.1.map (fun m =>
          .vdict [("message", .vstr m.message), ("category", .vstr m.category)])))],
       popped.2)
    else (st.props, session)
  let step2 :=
    if st.config_.use_flash_errors then
      let popped := _get_flashed_errors step1.2
      (dictUpdate step1.1 [(st.config_.flash_error_key,
        .vdict (popped.1.map (fun p => (p.1, Val.vstr p.2))))],
       popped.2)
    else step1
  let merged := dictUpdate step2.1 (props.getD [])
  (_get_page_data st.request st.config_ component merged, step2.2)

/-- `Inertia.render`.  The outcome of the SSR HTTP interaction that
`_render_ssr` would perform (POST of the page to `{ssr_url}/render`,
`raise_for_status`, body parsing) is passed in as `ssr_result` and is
consulted only on the SSR branch.  The classic branch raises (TypeError)
when the page is not JSON-serializable; `render` otherwise returns the
response and the session as left by the flash pops. -/
def render (st : State) (session : Session) (component : String)
    (props : Option (List (String × Val)))
    (ssr_result : Except SSRError SSRPayload) :
    Except PyError (InertiaResponse × Session) :=
  let paged := renderPage st session component props
  let page := paged.1
  if Headers.hasKey st.request.headers "X-Inertia" then
    .ok (.json page [("Vary", "Accept"), ("X-Inertia", "true")], paged.2)
  else
    let classic : Except PyError (InertiaResponse × Session) :=
      match pageToJson page with
      | none => .error .typeError
      | some page_json =>
        .ok (.template 200 st.config_.root_template_filename
          { environment := st.config_.environment
            is_react := some st.config_.is_react
            dev_url := st.config_.dev_url
            is_ssr := false
            data := some page_json
            js := st.inertia_files.js_file
            css := st.inertia_files.css_files
            ssr_head := none
            ssr_body := none }, paged.2)
    if st.config_.ssr_enabled then
      match ssr_result with
      | .ok payload =>
        .ok (.template 200 st.config_.root_template_filename
          { environment := st.config_.environment
            is_react := some st.config_.is_react
            dev_url := st.config_.dev_url
            is_ssr := true
            data := none
            js := st.inertia_files.js_file
            css := st.inertia_files.css_files
            ssr_head := some (String.intercalate "\n" payload.head)
            ssr_body := some payload.body }, paged.2)
      | .error _ => classic
    else classic

end Inertia

/-! ### Store view of prop resolution

Python dicts are mutable objects; to state that `_build_props` /
`_deep_transform_callables` never mutate a caller-supplied value, dicts
live in an explicit store and are addressed by reference.  `dict.copy()`
allocates, `prop_[key] = …` writes into the allocated copy, and the claim
becomes: every address that existed before the call is unchanged after
it. -/

/-- Python values, store view.  `href a` is a dict living at address `a`
of the store. -/
inductive HVal where
  | hprim : Nat → HVal
  | hstr : String → HVal
  | hfunc : HVal → HVal
  | hlazy : HVal → HVal
  | hmodel : List (String × Nat) → HVal
  | href : Nat → HVal
deriving DecidableEq, Repr

/-- A dict object: ordered key-value pairs. -/
abbrev HDict := List (String × HVal)

/-- The store of dict objects, addressed by position. -/
abbrev Heap := List HDict

/-- Allocate a new dict object, returning its address. -/
def Heap.alloc (h : Heap) (d : HDict) : Heap × Nat :=
  (h ++ [d], h.length)

/-- Overwrite the dict object at address `a`. -/
def Heap.write (h : Heap) (a : Nat) (d : HDict) : Heap :=
  h.set a d

/-- Python `d[k] = v`: replace in place when the key exists, append
otherwise. -/
def HDict.setKey (d : HDict) (k : String) (v : HVal) : HDict :=
  if d.any (fun p => p.1 == k) then
    d.map (fun p => if p.1 == k then (k, v) else p)
  else d ++ [(k, v)]

/-- Python `callable(v)`, store view. -/
def HVal.isCallable : HVal → Bool
  | .hfunc _ => true
  | .hlazy _ => true
  | _ => false

/-- The result of `v()` for a callable `v`, store view. -/
def HVal.callResult : HVal → HVal
  | .hfunc v => v
  | .hlazy p => if p.isCallable then p.callResult else p
  | v => v

/-- `isinstance(v, LazyProp)`, store view. -/
def HVal.isLazyProp : HVal → Bool
  | .hlazy _ => true
  | _ => false

mutual

/-- `Inertia._deep_transform_callables`, store view.  A dict reference is
copied (`prop.copy()` allocates), the key loop writes the transformed
values into the copy, and the copy's reference is returned; a `BaseModel`
dump allocates a fresh dict; everything else leaves the store alone.
`fuel` bounds the recursion depth (the Python recursion is unbounded and
diverges on cyclic dicts) and decreases on every call so that the
recursion is structural; the result is `none` when it runs out. -/
def deepTransformH : Nat → Heap → HVal → Option (Heap × HVal)
  | 0, _, _ => none
  | n + 1, h, v =>
    match v with
    | .href a =>
      match h.get? a with
      | none => none
      | some d =>
        let alloc_ := Heap.alloc h d
        match transformLoop n alloc_.1 alloc_.2 (d.map Prod.fst) with
        | none => none
        | some h2 => some (h2, .href alloc_.2)
    | w =>
      if w.isCallable then some (h, w.callResult)
      else
        match w with
        | .hmodel fields =>
          let alloc_ := Heap.alloc h (fields.map (fun p => (p.1, HVal.hprim p.2)))
          some (alloc_.1, .href alloc_.2)
        | x => some (h, x)

/-- The `for key in list(prop_.keys())` loop, store view: read the current
value at `k` in the dict at address `a`, transform it, write it back. -/
def transformLoop : Nat → Heap → Nat → List String → Option Heap
  | _, h, _, [] => some h
  | 0, _, _, _ :: _ => none
  | n + 1, h, a, k :: rest =>
    match h.get? a with
    | none => none
    | some d =>
      match d.lookup k with
      | none => none
      | some v =>
        match deepTransformH n h v with
        | none => none
        | some hv =>
          match hv.1.get? a with
          | none => none
          | some d2 =>
            transformLoop n (Heap.write hv.1 a (HDict.setKey d2 k hv.2)) a rest

end

/-- `Inertia._build_props`, store view: copy the prop dict, run the
partial/lazy deletion loop, allocate the copy, and deep-transform it. -/
def buildPropsH (fuel : Nat) (h : Heap) (req : Request) (component : String)
    (props : HDict) : Option (Heap × HVal) :=
  let filtered := props.filter (fun p =>
    if Inertia._is_a_partial_render req component then
      decide (p.1 ∈ Inertia._partial_keys req)
    else
      !p.2.isLazyProp)
  let alloc_ := Heap.alloc h filtered
  deepTransformH fuel alloc_.1 (.href alloc_.2)

/-! ### Helper lemmas -/

namespace Inertia

theorem deep_transform_entries_keys (l : List (String × Val)) :
    (_deep_transform_entries l).map Prod.fst = l.map Prod.fst := by
  induction l with
  | nil => rfl
  | cons p rest ih =>
    obtain ⟨k, v⟩ := p
    simp [_deep_transform_entries, ih]

@[simp] theorem dlookup_nil (k : String) : dlookup [] k = none := rfl

@[simp] theorem dlookup_cons (p : String × Val) (rest : List (String × Val)) (k : String) :
    dlookup (p :: rest) k = if p.1 = k then some p.2 else dlookup rest k := rfl

theorem deep_transform_entries_dlookup (l : List (String × Val)) (k : String) :
    dlookup (_deep_transform_entries l) k = (dlookup l k).map _deep_transform_callables := by
  induction l with
  | nil => rfl
  | cons p rest ih =>
    obtain ⟨k', v⟩ := p
    by_cases hk : k' = k
    · simp [_deep_transform_entries, dlookup, hk]
    · simp [_deep_transform_entries, dlookup, hk, ih]

theorem dlookup_filter_of_pred (l : List (String × Val)) (p : String × Val → Bool)
    (k : String) (v : Val) (hl : dlookup l k = some v) (hp : p (k, v) = true) :
    dlookup (l.filter p) k = some v := by
  induction l with
  | nil => simp [dlookup] at hl
  | cons q rest ih =>
    obtain ⟨k', v'⟩ := q
    by_cases hk : k' = k
    · subst hk
      obtain rfl : v' = v := by simpa [dlookup] using hl
      simp [List.filter_cons, hp, dlookup]
    · have hlk : dlookup rest k = some v := by simpa [dlookup, hk] using hl
      by_cases hq : p (k', v') = true
      · simp [List.filter_cons, hq, dlookup, hk, ih hlk]
      · simp only [Bool.not_eq_true] at hq
        simp [List.filter_cons, hq, ih hlk]

theorem dlookup_filter_none (l : List (String × Val)) (p : String × Val → Bool)
    (k : String) (hp : ∀ v, p (k, v) = false) :
    dlookup (l.filter p) k = none := by
  induction l with
  | nil => rfl
  | cons q rest ih =>
    obtain ⟨k', v'⟩ := q
    by_cases hq : p (k', v') = true
    · by_cases hk : k' = k
      · subst hk
        simp [hp v'] at hq
      · simp [List.filter_cons, hq, dlookup, hk, ih]
    · simp only [Bool.not_eq_true] at hq
      simp [List.filter_cons, hq, ih]

theorem nodup_keys_mem_eq {l : List (String × Val)} {k : String} {a b : Val}
    (hnd : (l.map Prod.fst).Nodup) (ha : (k, a) ∈ l) (hb : (k, b) ∈ l) : a = b := by
  induction l with
  | nil => simp at ha
  | cons q rest ih =>
    obtain ⟨k', v'⟩ := q
    simp only [List.map_cons, List.nodup_cons] at hnd
    rcases List.mem_cons.mp ha with ha1 | ha2
    · rcases List.mem_cons.mp hb with hb1 | hb2
      · cases ha1; cases hb1; rfl
      · exfalso
        cases ha1
        exact hnd.1 (List.mem_map.mpr ⟨(k, b), hb2, rfl⟩)
    · rcases List.mem_cons.mp hb with hb1 | hb2
      · exfalso
        cases hb1
        exact hnd.1 (List.mem_map.mpr ⟨(k, a), ha2, rfl⟩)
      · exact ih hnd.2 ha2 hb2

theorem dictSet_dlookup_self (d : List (String × Val)) (k : String) (v : Val) :
    dlookup (dictSet d k v) k = some v := by
  rw [dictSet]
  by_cases hmem : d.any (fun p => decide (p.1 = k)) = true
  · rw [if_pos hmem]
    induction d with
    | nil => simp at hmem
    | cons q rest ih =>
      obtain ⟨k', v'⟩ := q
      by_cases hk : k' = k
      · simp [hk, dlookup]
      · have : rest.any (fun p => decide (p.1 = k)) = true := by
          simpa [List.any_cons, hk] using hmem
        simp [dlookup, hk, ih this]
  · rw [if_neg hmem]
    simp only [List.any_eq_true, decide_eq_true_eq, not_exists, not_and] at hmem
    induction d with
    | nil => simp [dlookup]
    | cons q rest ih =>
      obtain ⟨k', v'⟩ := q
      have hk : k' ≠ k := fun h => hmem (k', v') (List.mem_cons_self _ _) h
      simp only [List.cons_append, dlookup, if_neg hk]
      exact ih (fun p hp => hmem p (List.mem_cons_of_mem _ hp))

theorem dictSet_dlookup_ne (d : List (String × Val)) (k k' : String) (v : Val)
    (h : k' ≠ k) : dlookup (dictSet d k v) k' = dlookup d k' := by
  rw [dictSet]
  by_cases hmem : d.any (fun p => decide (p.1 = k)) = true
  · rw [if_pos hmem]
    clear hmem
    induction d with
    | nil => rfl
    | cons q rest ih =>
      obtain ⟨k₁, v₁⟩ := q
      by_cases hk : k₁ = k
      · subst hk
        simp [dlookup, Ne.symm h, ih]
      · by_cases hkq : k₁ = k'
        · simp [dlookup, hk, hkq, h]
        · simp [dlookup, hk, hkq, ih]
  · rw [if_neg hmem]
    clear hmem
    induction d with
    | nil => simp [dlookup, Ne.symm h]
    | cons q rest ih =>
      obtain ⟨k₁, v₁⟩ := q
      by_cases hkq : k₁ = k'
      · simp [dlookup, hkq]
      · simp [dlookup, hkq, ih]

theorem dictUpdate_dlookup_not_mem (d u : List (String × Val)) (k : String)
    (h : k ∉ u.map Prod.fst) : dlookup (dictUpdate d u) k = dlookup d k := by
  induction u generalizing d with
  | nil => rfl
  | cons q rest ih =>
    obtain ⟨k₁, v₁⟩ := q
    simp only [List.map_cons, List.mem_cons, not_or] at h
    rw [dictUpdate, List.foldl_cons]
    rw [show (List.foldl (fun acc p => dictSet acc p.1 p.2) (dictSet d k₁ v₁) rest)
        = dictUpdate (dictSet d k₁ v₁) rest from rfl]
    rw [ih (dictSet d k₁ v₁) (by simpa using h.2), dictSet_dlookup_ne _ _ _ _ h.1]

theorem dictUpdate_singleton_dlookup (d : List (String × Val)) (k : String) (v : Val) :
    dlookup (dictUpdate d [(k, v)]) k = some v := by
  rw [dictUpdate, List.foldl_cons, List.foldl_nil, dictSet_dlookup_self]

end Inertia

/-! ### Claims -/

/-- C7 counterexample: on a request without the partial-data header,
`_partial_keys` is `[""]` (Python `"".split(",")`), not the empty list the
claim asserts. -/
theorem C7_counterexample :
    Inertia._partial_keys { headers := [], url := "http://testserver/", method := "GET" }
        = [""] ∧
    Inertia._partial_keys { headers := [], url := "http://testserver/", method := "GET" }
        ≠ [] := by
  constructor
  · rfl
  · decide

/-- C7 (amended): `_partial_keys` is the comma-split of the partial-data
header when that header is present, and the comma-split of the empty
string — the one-element list `[""]`, not the empty list — when it is
absent. -/
theorem C7_partial_keys (req : Request) :
    (∀ s, Headers.get req.headers "X-Inertia-Partial-Data" = some s →
      Inertia._partial_keys req = pySplit s (Char.ofNat 44)) ∧
    (Headers.get req.headers "X-Inertia-Partial-Data" = none →
      Inertia._partial_keys req = [""]) := by
  constructor
  · intro s hs
    rw [Inertia._partial_keys, Headers.getD, hs]
    rfl
  · intro hnone
    rw [Inertia._partial_keys, Headers.getD, hnone]
    rfl

/-- C7 witness: a present header is comma-split. -/
theorem C7_witness :
    Inertia._partial_keys
        { headers := [("X-Inertia-Partial-Data", "a,b")], url := "u", method := "GET" }
      = ["a", "b"] := by
  have h := (C7_partial_keys
    { headers := [("X-Inertia-Partial-Data", "a,b")], url := "u", method := "GET" }).1
    "a,b" rfl
  rw [h]
  rfl

/-- C10: `back()` reads `headers["Referer"]` unguarded, so on any request
without a Referer header — whatever the method — it raises `KeyError`
instead of returning a redirect response. -/
theorem C10_back_requires_referer (req : Request)
    (h : Headers.get req.headers "Referer" = none) :
    Inertia.back req = .error .keyError := by
  rw [Inertia.back, h]

/-- C10 witness: a POST request with no headers at all. -/
theorem C10_back_requires_referer_witness :
    Inertia.back { headers := [], url := "http://testserver/submit", method := "POST" }
      = .error .keyError :=
  C10_back_requires_referer
    { headers := [], url := "http://testserver/submit", method := "POST" } rfl

/-- C6: the bundled branch can never produce the claimed URL because the
`InertiaConfig` dataclass has no assets-prefix attribute: for the very
configuration the repository's own test (test_production_assets_prefix.py)
builds, `_set_inertia_files` raises `AttributeError` right after the
manifest lookup; the `posixpath.join` call the claim describes — had the
attribute existed — would indeed give `/custom-prefix/assets/main-aBc123.js`. -/
theorem C6_assets_prefix_bug :
    Inertia._set_inertia_files { environment := .production }
        (some [("src/main.js",
          { file := "assets/main-aBc123.js", css := some ["assets/index-4ba0cbb4.css"] })])
      = .error (.attributeError "assets_prefix") ∧
    Inertia.posixpathJoin "/" ["custom-prefix", "assets/main-aBc123.js"]
      = "/custom-prefix/assets/main-aBc123.js" ∧
    Inertia.posixpathJoin "/" ["", "assets/main-aBc123.js"]
      = "/assets/main-aBc123.js" := by
  refine ⟨rfl, rfl, rfl⟩

/-- C4: with configured version `"1.0"` (and development-mode asset
resolution, so `_set_inertia_files` succeeds before the version check),
constructing the adapter for a request declaring version `"0.9"` fails
with the version-conflict error carrying the requested URL, while a
request declaring `"1.0"` or nothing constructs successfully. -/
theorem C4_version_guard (req : Request) (manifest? : Option ViteManifest)
    (config_ : InertiaConfig) (hver : config_.version = "1.0")
    (henv : config_.environment = .development) (hssr : config_.ssr_enabled = false) :
    (Headers.get req.headers "X-Inertia-Version" = some "0.9" →
      Inertia.init req config_ manifest? = .error (.versionConflict ⟨req.url⟩)) ∧
    ((Headers.get req.headers "X-Inertia-Version" = some "1.0" ∨
      Headers.get req.headers "X-Inertia-Version" = none) →
      ∃ st, Inertia.init req config_ manifest? = .ok st) := by
  have hfiles : Inertia._set_inertia_files config_ manifest? = .ok
      { css_files := []
        js_file := config_.dev_url ++ "/" ++ config_.root_directory ++ "/"
          ++ config_.entrypoint_filename } := by
    simp [Inertia._set_inertia_files, henv, hssr]
  constructor
  · intro h09
    have hstale : Inertia._is_stale req config_ = true := by
      simp only [Inertia._is_stale, Headers.getD, h09, hver]
      decide
    simp [Inertia.init, hfiles, hstale]
  · intro hok
    have hfresh : Inertia._is_stale req config_ = false := by
      rcases hok with h10 | habs
      · simp only [Inertia._is_stale, Headers.getD, h10, hver]
        decide
      · simp [Inertia._is_stale, Headers.getD, habs]
    have : Inertia.init req config_ manifest? = .ok
        { request := req, config_ := config_, component := "", props := []
          inertia_files :=
            { css_files := []
              js_file := config_.dev_url ++ "/" ++ config_.root_directory ++ "/"
                ++ config_.entrypoint_filename } } := by
      simp [Inertia.init, hfiles, hfresh]
    exact ⟨_, this⟩

/-- C4 witness: version `"0.9"` at a concrete request is rejected with the
URL, and the two accepting header shapes construct. -/
theorem C4_version_guard_witness :
    (Inertia.init
        { headers := [("X-Inertia-Version", "0.9")], url := "http://testserver/a",
          method := "GET" }
        { } none
      = .error (.versionConflict ⟨"http://testserver/a"⟩)) ∧
    (∃ st, Inertia.init
        { headers := [("X-Inertia-Version", "1.0")], url := "http://testserver/a",
          method := "GET" }
        { } none = .ok st) ∧
    (∃ st, Inertia.init
        { headers := [], url := "http://testserver/a", method := "GET" }
        { } none = .ok st) := by
  refine ⟨?_, ?_, ?_⟩
  · exact (C4_version_guard
      { headers := [("X-Inertia-Version", "0.9")], url := "http://testserver/a",
        method := "GET" } none { } rfl rfl rfl).1 rfl
  · exact (C4_version_guard
      { headers := [("X-Inertia-Version", "1.0")], url := "http://testserver/a",
        method := "GET" } none { } rfl rfl rfl).2 (Or.inl rfl)
  · exact (C4_version_guard
      { headers := [], url := "http://testserver/a", method := "GET" } none
      { } rfl rfl rfl).2 (Or.inr rfl)

/-- C2: for every merged prop mapping `P`, on a partial render the key
set of the props in the resulting page payload equals the intersection of
the keys of `P` with the partial-key set parsed from the partial-data
header. -/
theorem C2_partial_prop_keys (req : Request) (component : String)
    (P : List (String × Val))
    (hpart : Inertia._is_a_partial_render req component = true) :
    ((Inertia._build_props req component P).map Prod.fst).toFinset =
      (P.map Prod.fst).toFinset ∩ (Inertia._partial_keys req).toFinset := by
  ext k
  simp only [Inertia._build_props, Inertia.deep_transform_entries_keys, hpart, if_true,
    List.mem_toFinset, Finset.mem_inter, List.mem_map, List.mem_filter,
    decide_eq_true_eq]
  constructor
  · rintro ⟨p, ⟨hpP, hpK⟩, rfl⟩
    exact ⟨⟨p, hpP, rfl⟩, hpK⟩
  · rintro ⟨⟨p, hpP, rfl⟩, hk⟩
    exact ⟨p, ⟨hpP, hk⟩, rfl⟩

/-- C2 witness: a concrete partial render keeps exactly the requested
keys that exist. -/
theorem C2_partial_prop_keys_witness :
    Inertia._is_a_partial_render
        { headers := [("X-Inertia-Partial-Data", "a,b"),
            ("X-Inertia-Partial-Component", "Page")], url := "u", method := "GET" }
        "Page" = true ∧
    ((Inertia._build_props
        { headers := [("X-Inertia-Partial-Data", "a,b"),
            ("X-Inertia-Partial-Component", "Page")], url := "u", method := "GET" }
        "Page" [("a", .vint 1), ("c", .vint 2)]).map Prod.fst).toFinset =
      ([("a", Val.vint 1), ("c", Val.vint 2)].map Prod.fst).toFinset ∩
        (Inertia._partial_keys
          { headers := [("X-Inertia-Partial-Data", "a,b"),
              ("X-Inertia-Partial-Component", "Page")], url := "u", method := "GET" }).toFinset :=
  ⟨by decide, C2_partial_prop_keys
    { headers := [("X-Inertia-Partial-Data", "a,b"),
        ("X-Inertia-Partial-Component", "Page")], url := "u", method := "GET" }
    "Page" [("a", .vint 1), ("c", .vint 2)] (by decide)⟩

/-- C3: on a non-partial render, every top-level key of the (duplicate-free)
merged mapping `P` whose value is a `LazyProp` is absent from the page
payload's props. -/
theorem C3_lazy_excluded (req : Request) (component : String)
    (P : List (String × Val)) (k : String) (v : Val)
    (hfull : Inertia._is_a_partial_render req component = false)
    (hnd : (P.map Prod.fst).Nodup) (hmem : (k, v) ∈ P)
    (hlazy : v.isLazyProp = true) :
    k ∉ (Inertia._build_props req component P).map Prod.fst := by
  rw [Inertia._build_props, Inertia.deep_transform_entries_keys]
  intro hk
  rw [List.mem_map] at hk
  obtain ⟨p, hp, hpk⟩ := hk
  rw [List.mem_filter] at hp
  obtain ⟨hpP, hpred⟩ := hp
  simp only [hfull, Bool.false_eq_true, if_false, Bool.not_eq_true'] at hpred
  have hveq : p.2 = v := by
    refine Inertia.nodup_keys_mem_eq hnd ?_ hmem
    rw [← hpk] at hmem ⊢
    simpa using hpP
  rw [hveq, hlazy] at hpred
  cases hpred

/-- C3 witness: a lazy prop at a concrete key disappears from a full
render. -/
theorem C3_lazy_excluded_witness :
    "secret" ∉ (Inertia._build_props
        { headers := [], url := "u", method := "GET" } "Page"
        [("a", .vint 1), ("secret", .vlazy (.vfunc (.vint 42)))]).map Prod.fst :=
  C3_lazy_excluded { headers := [], url := "u", method := "GET" } "Page"
    [("a", .vint 1), ("secret", .vlazy (.vfunc (.vint 42)))] "secret"
    (.vlazy (.vfunc (.vint 42))) (by decide) (by decide)
    (by simp) (by decide)

/-- helper: the session after the message pop has no messages. -/
theorem get_flashed_messages_snd (s : Session) :
    ((Inertia._get_flashed_messages s).2).messages = none := by
  cases h : s.messages <;> simp [Inertia._get_flashed_messages, h]

/-- helper: popping from a session without messages is a no-op. -/
theorem get_flashed_messages_of_none (s : Session) (h : s.messages = none) :
    Inertia._get_flashed_messages s = ([], s) := by
  simp [Inertia._get_flashed_messages, h]

/-- helper: a Python list passes through `_deep_transform_callables`
unchanged (recursion descends into mappings only). -/
theorem deep_transform_vlist (l : List Val) :
    Inertia._deep_transform_callables (.vlist l) = .vlist l := by
  simp [Inertia._deep_transform_callables, Val.isCallable]

/-- helper shared by the flash claims: with flash messages enabled and
flash errors disabled, `renderPage` pops the session messages, and the
payload carries them under the flash-message key exactly when that key
survives partial filtering (the per-call `props` must not shadow the
key). -/
theorem renderPage_flash (st : Inertia.State) (session : Session)
    (component : String) (props : Option (List (String × Val)))
    (hflash : st.config_.use_flash_messages = true)
    (herr : st.config_.use_flash_errors = false)
    (hprops : st.config_.flash_message_key ∉ (props.getD []).map Prod.fst) :
    ((Inertia.renderPage st session component props).2).messages = none ∧
    (Inertia._is_a_partial_render st.request component = false →
      Inertia.dlookup (Inertia.renderPage st session component props).1.props
          st.config_.flash_message_key =
        some (.vlist ((Inertia._get_flashed_messages session).1.map (fun m =>
          .vdict [("message", .vstr m.message), ("category", .vstr m.category)])))) ∧
    (Inertia._is_a_partial_render st.request component = true →
      st.config_.flash_message_key ∉ Inertia._partial_keys st.request →
      Inertia.dlookup (Inertia.renderPage st session component props).1.props
          st.config_.flash_message_key = none) := by
  have hpage : Inertia.renderPage st session component props =
      (Inertia._get_page_data st.request st.config_ component
        (Inertia.dictUpdate
          (Inertia.dictUpdate st.props [(st.config_.flash_message_key,
            .vlist ((Inertia._get_flashed_messages session).1.map (fun m =>
              .vdict [("message", .vstr m.message), ("category", .vstr m.category)])))])
          (props.getD [])),
       (Inertia._get_flashed_messages session).2) := by
    simp [Inertia.renderPage, hflash, herr]
  have hmerged : Inertia.dlookup
      (Inertia.dictUpdate
        (Inertia.dictUpdate st.props [(st.config_.flash_message_key,
          .vlist ((Inertia._get_flashed_messages session).1.map (fun m =>
            .vdict [("message", .vstr m.message), ("category", .vstr m.category)])))])
        (props.getD []))
      st.config_.flash_message_key
      = some (.vlist ((Inertia._get_flashed_messages session).1.map (fun m =>
          .vdict [("message", .vstr m.message), ("category", .vstr m.category)]))) := by
    rw [Inertia.dictUpdate_dlookup_not_mem _ _ _ hprops,
      Inertia.dictUpdate_singleton_dlookup]
  refine ⟨?_, ?_, ?_⟩
  · rw [hpage]
    exact get_flashed_messages_snd session
  · intro hfull
    rw [hpage]
    simp only [Inertia._get_page_data, Inertia._build_props,
      Inertia.deep_transform_entries_dlookup]
    rw [Inertia.dlookup_filter_of_pred _ _ _ _ hmerged
      (by simp [hfull, Val.isLazyProp])]
    simp [deep_transform_vlist]
  · intro hpart hnotin
    rw [hpage]
    simp only [Inertia._get_page_data, Inertia._build_props,
      Inertia.deep_transform_entries_dlookup]
    rw [Inertia.dlookup_filter_none _ _ _ (fun v => by simp [hpart, hnotin])]
    rfl

/-- Concrete fixture: adapter state for a flash-enabled partial render
that requests only the key `"foo"`. -/
def stPartialFlash : Inertia.State :=
  { request :=
      { headers := [("X-Inertia", "true"), ("X-Inertia-Partial-Data", "foo"),
          ("X-Inertia-Partial-Component", "IndexPage")],
        url := "http://testserver/", method := "GET" },
    config_ := { use_flash_messages := true },
    component := "",
    props := [("foo", .vint 1)],
    inertia_files := { css_files := [], js_file := "/assets/main.js" } }

/-- Concrete fixture: a session holding one flashed message. -/
def sessOneMessage : Session :=
  { messages := some [{ message := "hi", category := "info" }], errors := none }

/-- C5 counterexample: flash messages enabled and one message flashed, on
a partial render whose partial-key list (`["foo"]`) does not contain the
flash-message key (`"messages"`): the message is popped from the session,
yet the payload's props are just `foo` — no flash-message key at all, so
the flashed messages are not "always included ... independent of
partial-reload filtering". -/
theorem C5_counterexample :
    stPartialFlash.config_.use_flash_messages = true ∧
    stPartialFlash.config_.flash_message_key = "messages" ∧
    Inertia._is_a_partial_render stPartialFlash.request "IndexPage" = true ∧
    sessOneMessage.messages = some [{ message := "hi", category := "info" }] ∧
    (Inertia.renderPage stPartialFlash sessOneMessage "IndexPage" none).1.props
      = [("foo", Val.vint 1)] ∧
    Inertia.dlookup
        (Inertia.renderPage stPartialFlash sessOneMessage "IndexPage" none).1.props
        "messages" = none ∧
    (Inertia.renderPage stPartialFlash sessOneMessage "IndexPage" none).2.messages
      = none := by
  exact ⟨rfl, rfl, by rfl, rfl, by rfl, by rfl, by rfl⟩

/-- C5 (amended): at render time the flashed messages are popped
(read-once) and merged into the props under the configured flash-message
key *before* filtering; they are included in the payload on a full render,
but the merged flash prop is subject to the same partial-reload filtering
as every other prop, so on a partial render whose partial-key list does
not contain the flash-message key it is absent from the payload (while
still being removed from the session). -/
theorem C5_flash_filtering (st : Inertia.State) (session : Session)
    (component : String) (props : Option (List (String × Val)))
    (hflash : st.config_.use_flash_messages = true)
    (herr : st.config_.use_flash_errors = false)
    (hprops : st.config_.flash_message_key ∉ (props.getD []).map Prod.fst) :
    ((Inertia.renderPage st session component props).2).messages = none ∧
    (Inertia._is_a_partial_render st.request component = false →
      Inertia.dlookup (Inertia.renderPage st session component props).1.props
          st.config_.flash_message_key =
        some (.vlist ((Inertia._get_flashed_messages session).1.map (fun m =>
          .vdict [("message", .vstr m.message), ("category", .vstr m.category)])))) ∧
    (Inertia._is_a_partial_render st.request component = true →
      st.config_.flash_message_key ∉ Inertia._partial_keys st.request →
      Inertia.dlookup (Inertia.renderPage st session component props).1.props
          st.config_.flash_message_key = none) :=
  renderPage_flash st session component props hflash herr hprops

/-- C5 witness: the amended claim applied to the concrete partial render:
the flash key is filtered out. -/
theorem C5_flash_filtering_witness :
    Inertia.dlookup
        (Inertia.renderPage stPartialFlash sessOneMessage "IndexPage" none).1.props
        "messages" = none :=
  (C5_flash_filtering stPartialFlash sessOneMessage "IndexPage" none rfl rfl
    (by simp)).2.2 (by rfl) (by decide)

/-- C8: flashing one message into a fresh session and then rendering (a
full render for this adapter's component) includes the message exactly
once under the configured flash-message key, and the pop removes it from
the session: a second render in the same session carries the empty list —
once popped, the flash data is gone. -/
theorem C8_flash_once (st1 st2 : Inertia.State) (s0 s1 : Session)
    (msg cat : String) (c1 c2 : String)
    (p1 p2 : Option (List (String × Val)))
    (h1m : st1.config_.use_flash_messages = true)
    (h1e : st1.config_.use_flash_errors = false)
    (h2m : st2.config_.use_flash_messages = true)
    (h2e : st2.config_.use_flash_errors = false)
    (h0 : s0.messages = none)
    (hflash : Inertia.flash st1.config_ s0 msg cat = .ok s1)
    (hfull1 : Inertia._is_a_partial_render st1.request c1 = false)
    (hfull2 : Inertia._is_a_partial_render st2.request c2 = false)
    (hp1 : st1.config_.flash_message_key ∉ (p1.getD []).map Prod.fst)
    (hp2 : st2.config_.flash_message_key ∉ (p2.getD []).map Prod.fst) :
    Inertia.dlookup (Inertia.renderPage st1 s1 c1 p1).1.props
        st1.config_.flash_message_key =
      some (.vlist [.vdict [("message", .vstr msg), ("category", .vstr cat)]]) ∧
    (Inertia.renderPage st1 s1 c1 p1).2.messages = none ∧
    Inertia.dlookup
        (Inertia.renderPage st2 (Inertia.renderPage st1 s1 c1 p1).2 c2 p2).1.props
        st2.config_.flash_message_key = some (.vlist []) := by
  have hs1 : s1.messages = some [⟨msg, cat⟩] := by
    simp [Inertia.flash, h1m, h0] at hflash
    rw [← hflash]
  have hone := renderPage_flash st1 s1 c1 p1 h1m h1e hp1
  have hmsg : (Inertia._get_flashed_messages s1).1 = [⟨msg, cat⟩] := by
    simp [Inertia._get_flashed_messages, hs1]
  refine ⟨?_, hone.1, ?_⟩
  · have h := hone.2.1 hfull1
    rw [hmsg] at h
    simpa using h
  · have htwo := renderPage_flash st2 (Inertia.renderPage st1 s1 c1 p1).2 c2 p2
      h2m h2e hp2
    have h := htwo.2.1 hfull2
    rw [get_flashed_messages_of_none _ hone.1] at h
    simpa using h

/-- Concrete fixture: adapter state for a full (non-partial) protocol
render with flash messages enabled. -/
def stFullFlash : Inertia.State :=
  { request :=
      { headers := [("X-Inertia", "true")], url := "http://testserver/",
        method := "GET" },
    config_ := { use_flash_messages := true },
    component := "",
    props := [],
    inertia_files := { css_files := [], js_file := "/assets/main.js" } }

/-- C8 witness: flash `"hello"` once, render twice. -/
theorem C8_flash_once_witness :
    Inertia.dlookup
        (Inertia.renderPage stFullFlash
          { messages := some [{ message := "hello", category := "success" }],
            errors := none } "Page" none).1.props "messages" =
      some (.vlist [.vdict [("message", .vstr "hello"),
        ("category", .vstr "success")]]) ∧
    (Inertia.renderPage stFullFlash
        { messages := some [{ message := "hello", category := "success" }],
          errors := none } "Page" none).2.messages = none ∧
    Inertia.dlookup
        (Inertia.renderPage stFullFlash
          (Inertia.renderPage stFullFlash
            { messages := some [{ message := "hello", category := "success" }],
              errors := none } "Page" none).2 "Page" none).1.props "messages" =
      some (.vlist []) :=
  C8_flash_once stFullFlash stFullFlash { messages := none, errors := none }
    { messages := some [{ message := "hello", category := "success" }],
      errors := none }
    "hello" "success" "Page" "Page" none none
    rfl rfl rfl rfl rfl (by rfl) (by rfl) (by rfl) (by simp) (by simp)

/-- C1: for a non-protocol request with SSR enabled, when the SSR
interaction fails with any error, `render` still returns the classic
template response — status 200, `is_ssr = false`, the double-`json.dumps`
page JSON as `data`, and the resolved asset files — with the session as
left by the flash pops, and the SSR failure never propagates (the result
is `.ok`, for every error value).  The extension renders that context as
the mount element `<div id="app" data-page='…page JSON…'>` plus the module
script tag for the resolved JS file, and one stylesheet link per resolved
CSS file. -/
theorem C1_ssr_fallback (st : Inertia.State) (session : Session)
    (component : String) (props : Option (List (String × Val)))
    (e : SSRError) (page_json : String)
    (hni : Headers.hasKey st.request.headers "X-Inertia" = false)
    (hssr : st.config_.ssr_enabled = true)
    (hjson : Inertia.pageToJson
      (Inertia.renderPage st session component props).1 = some page_json) :
    Inertia.render st session component props (.error e) =
      .ok (.template 200 st.config_.root_template_filename
        { environment := st.config_.environment,
          is_react := some st.config_.is_react,
          dev_url := st.config_.dev_url,
          is_ssr := false,
          data := some page_json,
          js := st.inertia_files.js_file,
          css := st.inertia_files.css_files,
          ssr_head := none,
          ssr_body := none },
        (Inertia.renderPage st session component props).2) ∧
    _render_inertia_body
        { environment := st.config_.environment,
          is_react := some st.config_.is_react,
          dev_url := st.config_.dev_url,
          is_ssr := false,
          data := some page_json,
          js := st.inertia_files.js_file,
          css := st.inertia_files.css_files,
          ssr_head := none,
          ssr_body := none } =
      "<div id=\"app\" data-page=\x27" ++ page_json ++ "\x27></div>" ++ "\n" ++
        ("<script type=\"module\" src=\"" ++ st.inertia_files.js_file
          ++ "\"></script>") ∧
    ∀ css_file ∈ st.inertia_files.css_files,
      ("<link rel=\"stylesheet\" href=\"" ++ css_file ++ "\">") ∈
        _render_inertia_head_fragments
          { environment := st.config_.environment,
            is_react := some st.config_.is_react,
            dev_url := st.config_.dev_url,
            is_ssr := false,
            data := some page_json,
            js := st.inertia_files.js_file,
            css := st.inertia_files.css_files,
            ssr_head := none,
            ssr_body := none } := by
  refine ⟨?_, ?_, ?_⟩
  · simp [Inertia.render, hni, hssr, hjson]
  · rfl
  · intro css_file hf
    simp only [_render_inertia_head_fragments]
    refine List.mem_append.mpr (Or.inr ?_)
    exact List.mem_map.mpr ⟨css_file, hf, rfl⟩

/-- Concrete fixture: SSR-enabled adapter state for a non-protocol (HTML)
request. -/
def stSSR : Inertia.State :=
  { request := { headers := [], url := "http://testserver/", method := "GET" },
    config_ := { environment := .production, ssr_enabled := true },
    component := "",
    props := [("message", .vstr "hello")],
    inertia_files :=
      { css_files := ["/assets/index.css"], js_file := "/assets/main.js" } }

/-- C1 witness: a concrete failed SSR call falls back to the concrete
classic response. -/
theorem C1_ssr_fallback_witness :
    Inertia.render stSSR { messages := none, errors := none } "Home" none
        (.error .networkError) =
      .ok (.template 200 "index.html"
        { environment := .production,
          is_react := some false,
          dev_url := "http://localhost:5173",
          is_ssr := false,
          data := some ("\x7b\"component\": \"Home\", \"props\": "
            ++ "\x7b\"message\": \"hello\"\x7d, \"url\": \"http://testserver/\", "
            ++ "\"version\": \"1.0\"\x7d"),
          js := "/assets/main.js",
          css := ["/assets/index.css"],
          ssr_head := none,
          ssr_body := none },
        { messages := none, errors := none }) := by
  have h := (C1_ssr_fallback stSSR { messages := none, errors := none } "Home" none
    .networkError
    ("\x7b\"component\": \"Home\", \"props\": "
      ++ "\x7b\"message\": \"hello\"\x7d, \"url\": \"http://testserver/\", "
      ++ "\"version\": \"1.0\"\x7d")
    rfl rfl (by rfl)).1
  exact h

/-- helper: store-preservation of `deepTransformH`/`transformLoop`: every
address that existed before the call still holds the same dict object
afterwards (the loop writes only into the freshly allocated copy). -/
theorem deepTransform_frame (fuel : Nat) :
    (∀ h v h2 v2, deepTransformH fuel h v = some (h2, v2) →
      h.length ≤ h2.length ∧ ∀ i, i < h.length → h2.get? i = h.get? i) ∧
    (∀ ks h a h2, transformLoop fuel h a ks = some h2 →
      h.length ≤ h2.length ∧ ∀ i, i < h.length → i ≠ a → h2.get? i = h.get? i) := by
  induction fuel with
  | zero =>
    constructor
    · intro h v h2 v2 hrun
      simp [deepTransformH] at hrun
    · intro ks h a h2 hrun
      cases ks with
      | nil =>
        simp only [transformLoop, Option.some.injEq] at hrun
        subst hrun
        exact ⟨Nat.le_refl _, fun i _ _ => rfl⟩
      | cons k rest => simp [transformLoop] at hrun
  | succ n ih =>
    constructor
    · intro h v h2 v2 hrun
      cases v with
      | href a =>
        rw [deepTransformH] at hrun
        cases hga : h.get? a with
        | none =>
          rw [hga] at hrun
          dsimp only at hrun
          exact Option.noConfusion hrun
        | some d =>
          rw [hga] at hrun
          dsimp only at hrun
          cases hloop : transformLoop n (Heap.alloc h d).1 (Heap.alloc h d).2
              (d.map Prod.fst) with
          | none =>
            rw [hloop] at hrun
            dsimp only at hrun
            exact Option.noConfusion hrun
          | some h3 =>
            rw [hloop] at hrun
            dsimp only at hrun
            simp only [Option.some.injEq, Prod.mk.injEq] at hrun
            obtain ⟨rfl, rfl⟩ := hrun
            have hfr := ih.2 (d.map Prod.fst) (Heap.alloc h d).1 (Heap.alloc h d).2
              h3 hloop
            have hlen : (Heap.alloc h d).1.length = h.length + 1 := by
              simp [Heap.alloc]
            constructor
            · have := hfr.1
              omega
            · intro i hi
              have h1 : h3.get? i = (Heap.alloc h d).1.get? i := by
                refine hfr.2 i (by simp [Heap.alloc]; omega) ?_
                simp only [Heap.alloc]
                omega
              rw [h1]
              exact List.get?_append hi
      | hmodel fields =>
        simp only [deepTransformH, HVal.isCallable, Bool.false_eq_true, if_false,
          Option.some.injEq, Prod.mk.injEq] at hrun
        obtain ⟨rfl, -⟩ := hrun
        constructor
        · simp [Heap.alloc]
        · intro i hi
          exact List.get?_append hi
      | hfunc w =>
        simp only [deepTransformH, HVal.isCallable, HVal.callResult, if_true,
          Option.some.injEq, Prod.mk.injEq] at hrun
        obtain ⟨rfl, -⟩ := hrun
        exact ⟨Nat.le_refl _, fun i _ => rfl⟩
      | hlazy w =>
        simp only [deepTransformH, HVal.isCallable, HVal.callResult, if_true,
          Option.some.injEq, Prod.mk.injEq] at hrun
        obtain ⟨rfl, -⟩ := hrun
        exact ⟨Nat.le_refl _, fun i _ => rfl⟩
      | hprim m =>
        simp only [deepTransformH, HVal.isCallable, Bool.false_eq_true, if_false,
          Option.some.injEq, Prod.mk.injEq] at hrun
        obtain ⟨rfl, -⟩ := hrun
        exact ⟨Nat.le_refl _, fun i _ => rfl⟩
      | hstr m =>
        simp only [deepTransformH, HVal.isCallable, Bool.false_eq_true, if_false,
          Option.some.injEq, Prod.mk.injEq] at hrun
        obtain ⟨rfl, -⟩ := hrun
        exact ⟨Nat.le_refl _, fun i _ => rfl⟩
    · intro ks h a h2 hrun
      cases ks with
      | nil =>
        simp only [transformLoop, Option.some.injEq] at hrun
        subst hrun
        exact ⟨Nat.le_refl _, fun i _ _ => rfl⟩
      | cons k rest =>
        rw [transformLoop] at hrun
        cases hga : h.get? a with
        | none =>
          rw [hga] at hrun
          dsimp only at hrun
          exact Option.noConfusion hrun
        | some d =>
          rw [hga] at hrun
          dsimp only at hrun
          cases hlk : d.lookup k with
          | none =>
            rw [hlk] at hrun
            dsimp only at hrun
            exact Option.noConfusion hrun
          | some v =>
            rw [hlk] at hrun
            dsimp only at hrun
            cases hdt : deepTransformH n h v with
            | none =>
              rw [hdt] at hrun
              dsimp only at hrun
              exact Option.noConfusion hrun
            | some hv =>
              rw [hdt] at hrun
              dsimp only at hrun
              cases hg2 : hv.1.get? a with
              | none =>
                rw [hg2] at hrun
                dsimp only at hrun
                exact Option.noConfusion hrun
              | some d2 =>
                rw [hg2] at hrun
                dsimp only at hrun
                have hfr1 := ih.1 h v hv.1 hv.2 (by rw [hdt])
                have hfr2 := ih.2 rest
                  (Heap.write hv.1 a (HDict.setKey d2 k hv.2)) a h2 hrun
                have hwlen : (Heap.write hv.1 a (HDict.setKey d2 k hv.2)).length
                    = hv.1.length := by
                  simp [Heap.write]
                constructor
                · have h1 := hfr1.1
                  have h2l := hfr2.1
                  omega
                · intro i hi hia
                  have h1 : h2.get? i
                      = (Heap.write hv.1 a (HDict.setKey d2 k hv.2)).get? i := by
                    refine hfr2.2 i ?_ hia
                    rw [hwlen]
                    have := hfr1.1
                    omega
                  have h2' : (Heap.write hv.1 a (HDict.setKey d2 k hv.2)).get? i
                      = hv.1.get? i :=
                    List.get?_set_ne _ _ (fun hh => hia hh.symm)
                  rw [h1, h2', hfr1.2 i hi]

/-- helper: `_partial_keys` reads only the partial-data header. -/
theorem partial_keys_congr (r1 r2 : Request)
    (hpd : Headers.get r1.headers "X-Inertia-Partial-Data"
      = Headers.get r2.headers "X-Inertia-Partial-Data") :
    Inertia._partial_keys r1 = Inertia._partial_keys r2 := by
  simp [Inertia._partial_keys, Headers.getD, hpd]

/-- helper: `_is_a_partial_render` reads only the two partial headers. -/
theorem is_partial_congr (r1 r2 : Request) (component : String)
    (hpd : Headers.get r1.headers "X-Inertia-Partial-Data"
      = Headers.get r2.headers "X-Inertia-Partial-Data")
    (hpc : Headers.get r1.headers "X-Inertia-Partial-Component"
      = Headers.get r2.headers "X-Inertia-Partial-Component") :
    Inertia._is_a_partial_render r1 component
      = Inertia._is_a_partial_render r2 component := by
  simp [Inertia._is_a_partial_render, Headers.hasKey, Headers.getD, hpd, hpc]

/-- C9: prop resolution (partial/lazy filtering plus recursive
materialization), run on the explicit store of dict objects, never writes
to any pre-existing address — no caller-supplied mapping is mutated — and
its result depends only on the merged map (and store) and the two partial
headers: any request with the same partial-data and partial-component
headers produces the identical result. -/
theorem C9_no_mutation (fuel : Nat) (h : Heap) (req1 req2 : Request)
    (component : String) (props : HDict) (h2 : Heap) (v : HVal)
    (hrun : buildPropsH fuel h req1 component props = some (h2, v))
    (hpd : Headers.get req1.headers "X-Inertia-Partial-Data"
      = Headers.get req2.headers "X-Inertia-Partial-Data")
    (hpc : Headers.get req1.headers "X-Inertia-Partial-Component"
      = Headers.get req2.headers "X-Inertia-Partial-Component") :
    (∀ i, i < h.length → h2.get? i = h.get? i) ∧
    buildPropsH fuel h req2 component props = some (h2, v) := by
  constructor
  · have hrun2 : deepTransformH fuel
        (Heap.alloc h (props.filter (fun p =>
          if Inertia._is_a_partial_render req1 component then
            decide (p.1 ∈ Inertia._partial_keys req1)
          else !p.2.isLazyProp))).1
        (.href (Heap.alloc h (props.filter (fun p =>
          if Inertia._is_a_partial_render req1 component then
            decide (p.1 ∈ Inertia._partial_keys req1)
          else !p.2.isLazyProp))).2) = some (h2, v) := hrun
    have hfr := (deepTransform_frame fuel).1 _ _ _ _ hrun2
    intro i hi
    have hlt : i < (Heap.alloc h (props.filter (fun p =>
        if Inertia._is_a_partial_render req1 component then
          decide (p.1 ∈ Inertia._partial_keys req1)
        else !p.2.isLazyProp))).1.length := by
      simp only [Heap.alloc, List.length_append, List.length_cons, List.length_nil]
      omega
    rw [hfr.2 i hlt]
    exact List.get?_append hi
  · have hk := partial_keys_congr req1 req2 hpd
    have hp := is_partial_congr req1 req2 component hpd hpc
    simp only [buildPropsH] at hrun ⊢
    simp only [← hp, ← hk]
    exact hrun

/-- C9 witness: a store holding one caller-supplied dict at address 0,
passed by reference among the props; after resolution the address still
holds the original object, and a request differing only in URL and method
gives the identical result. -/
theorem C9_no_mutation_witness :
    buildPropsH 6 [[("owned", .hprim 7)]]
        { headers := [], url := "http://other/", method := "POST" } "C"
        [("a", .href 0), ("b", .hlazy (.hprim 1))] =
      some ([[("owned", .hprim 7)], [("a", .href 0)], [("a", .href 3)],
        [("owned", .hprim 7)]], .href 2) ∧
    List.get? ([[("owned", HVal.hprim 7)], [("a", HVal.href 0)],
        [("a", HVal.href 3)], [("owned", HVal.hprim 7)]] : Heap) 0
      = List.get? ([[("owned", HVal.hprim 7)]] : Heap) 0 := by
  have h := C9_no_mutation 6 [[("owned", .hprim 7)]]
    { headers := [], url := "http://testserver/", method := "GET" }
    { headers := [], url := "http://other/", method := "POST" } "C"
    [("a", .href 0), ("b", .hlazy (.hprim 1))]
    [[("owned", .hprim 7)], [("a", .href 0)], [("a", .href 3)],
      [("owned", .hprim 7)]] (.href 2) (by decide) rfl rfl
  exact ⟨h.2, h.1 0 (by simp)⟩

end FastApiInertia
